import Mathlib

/-!
A shallow embedding of plotman's live monitor (src/plotman/monitor.py) and
proofs about it.

The repository sources provide only `monitor.py`; the collaborators it calls
(`plotman.job`, `plotman.reporting`, `plotman.manager`, `plotman.plot_util`,
the `rich` and `prompt_toolkit` libraries, `os.path`) are external.  They are
embedded either as record-of-functions parameters (`Formatters`, the
scheduling-policy argument, the sampler argument) or, where the monitor's
behaviour depends on them, as definitions modelled from the specification.

Python's `sorted` is a stable sort; with respect to a total preorder a stable
sort is uniquely determined, so it is embedded as `List.insertionSort`, which
is stable and evaluates by kernel reduction.
-/

namespace Plotman

/-- Modelled from the spec: a phase is "an ordinal progress marker within a
job's lifecycle", written as a major/minor pair such as `(1,2)`, ordered
lexicographically.  (`plotman.job.Phase` is not under src/.) -/
abbrev Phase := Nat × Nat

/-- Lexicographic (non-strict) order on phases. -/
def phaseLe (p q : Phase) : Prop :=
  p.1 < q.1 ∨ (p.1 = q.1 ∧ p.2 ≤ q.2)

/-- Lexicographic strict order on phases. -/
def phaseLt (p q : Phase) : Prop :=
  p.1 < q.1 ∨ (p.1 = q.1 ∧ p.2 < q.2)

instance : DecidableRel phaseLe := fun _ _ =>
  inferInstanceAs (Decidable (_ ∨ _))

instance : DecidableRel phaseLt := fun _ _ =>
  inferInstanceAs (Decidable (_ ∨ _))

instance : IsTotal Phase phaseLe :=
  ⟨fun p q => by unfold phaseLe; omega⟩

instance : IsTrans Phase phaseLe :=
  ⟨fun p q r hpq hqr => by unfold phaseLe at *; omega⟩

theorem phaseLt_of_phaseLe_of_ne {p q : Phase} (h : phaseLe p q) (hne : p ≠ q) :
    phaseLt p q := by
  unfold phaseLe at h
  unfold phaseLt
  rcases p with ⟨p1, p2⟩
  rcases q with ⟨q1, q2⟩
  have hne' : ¬(p1 = q1 ∧ p2 = q2) := by simpa [Prod.ext_iff] using hne
  omega

/-- Modelled from the spec: the per-job snapshot ("JobSnapshot": identifier,
size parameter, temporary/destination paths, elapsed wall/user/system/io time,
phase marker, memory usage, temporary-space usage, process id, run status).
`plotman.job.Job` is not under src/; the monitor only reads these accessors. -/
structure Job where
  plot_id : String
  k : Nat
  tmpdir : String
  dstdir : String
  wall : Nat
  userTime : Nat
  sysTime : Nat
  ioTime : Nat
  phase : Phase
  tmpUsage : Nat
  pid : Nat
  runStatus : String
  mem : Nat
deriving DecidableEq

def Job.get_time_wall (j : Job) : Nat := j.wall

def Job.get_time_user (j : Job) : Nat := j.userTime

def Job.get_time_sys (j : Job) : Nat := j.sysTime

def Job.get_time_iowait (j : Job) : Nat := j.ioTime

def Job.get_tmp_usage (j : Job) : Nat := j.tmpUsage

def Job.get_mem_usage (j : Job) : Nat := j.mem

def Job.get_run_status (j : Job) : String := j.runStatus

def Job.progress (j : Job) : Phase := j.phase

/-- The `rich.table.Table` as the monitor fills it: a list of column headers
and a list of rows of cells. -/
structure Table where
  columns : List String
  rows : List (List String)
deriving DecidableEq

/-- The external formatting / path collaborators (spec section 6): duration,
size and phase-list formatters, path abbreviation, `os.path.commonpath`, and
the rich text capture used by the prompt-toolkit backend. -/
structure Formatters where
  abbr_path : String → String → String
  time_format : Nat → String
  human_format : Nat → Nat → String
  phase_str : Phase → String
  phases_str : List Phase → Nat → String
  commonpath : List String → String
  capture : Table → String

/-- Configured directories (`cfg.directories`): tmp list, dst list, log dir. -/
structure Directories where
  tmp : List String
  dst : List String
  log : String
deriving DecidableEq

/-- A validated configuration: directories plus an opaque scheduling config. -/
structure Config (S : Type) where
  directories : Directories
  scheduling : S

/-- `JobRow` from monitor.py: every attribute is declared with
`attr.ib(converter=str)` (`row_ib`), so each field is a display string. -/
structure JobRow where
  plot_id : String
  k : String
  tmp_path : String
  dst : String
  wall : String
  phase : String
  tmp_usage : String
  pid : String
  stat : String
  mem : String
  user : String
  sys : String
  io : String
deriving DecidableEq

/-- `JobRow.from_job`: each field is the `str` coercion of the corresponding
source expression (`job.plot_id[:8]`, `job.k`, abbreviated paths, formatted
durations, `job.proc.pid`, ...). -/
def JobRow.from_job (F : Formatters) (job : Job) (dstPfx tmpPfx : String) :
    JobRow where
  plot_id := job.plot_id.take 8
  k := toString job.k
  tmp_path := F.abbr_path job.tmpdir tmpPfx
  dst := F.abbr_path job.dstdir dstPfx
  wall := F.time_format job.get_time_wall
  phase := F.phase_str job.progress
  tmp_usage := F.human_format job.get_tmp_usage 0
  pid := toString job.pid
  stat := job.get_run_status
  mem := F.human_format job.get_mem_usage 1
  user := F.time_format job.get_time_user
  sys := F.time_format job.get_time_sys
  io := F.time_format job.get_time_iowait

/-- Comparison key of `sorted(jobs, key=plotman.job.Job.get_time_wall)`. -/
def wallLe (a b : Job) : Prop := a.get_time_wall ≤ b.get_time_wall

instance : DecidableRel wallLe := fun _ _ => Nat.decLe _ _

instance : IsTotal Job wallLe := ⟨fun _ _ => Nat.le_total _ _⟩

instance : IsTrans Job wallLe := ⟨fun _ _ _ h h' => Nat.le_trans h h'⟩

/-- `build_jobs_data`: stable-sort the jobs by wall time, then project each
job to a `JobRow`. -/
def build_jobs_data (F : Formatters) (jobs : List Job)
    (dstPfx tmpPfx : String) : List JobRow :=
  (jobs.insertionSort wallLe).map
    (fun job => JobRow.from_job F job dstPfx tmpPfx)

def JobRow.astuple (r : JobRow) : List String :=
  [r.plot_id, r.k, r.tmp_path, r.dst, r.wall, r.phase, r.tmp_usage, r.pid,
    r.stat, r.mem, r.user, r.sys, r.io]

/-- The `metadata['name']` column labels of `JobRow`, in field order. -/
def jobRowColumnNames : List String :=
  ["plot id", "k", "tmp", "dst", "wall", "phase", "tmp", "pid", "stat",
    "mem", "user", "sys", "io"]

/-- `build_jobs_table`: a `#` column then one column per `JobRow` field; one
table row per data row, prefixed with its index. -/
def build_jobs_table (jobs_data : List JobRow) : Table where
  columns := "#" :: jobRowColumnNames
  rows := jobs_data.enum.map (fun ir => toString ir.1 :: ir.2.astuple)

/-- Modelled from the spec: `plotman.job.job_phases_for_tmpdir` is not under
src/; per spec section 4.2 it collects "the set of phases of all jobs whose
temp directory equals" the given directory. -/
def job_phases_for_tmpdir (d : String) (all_jobs : List Job) : List Phase :=
  ((all_jobs.filter (fun j => j.tmpdir == d)).map Job.progress).dedup

/-- The sorted phase list computed at the top of `TmpRow.from_tmp`
(`sorted(plotman.job.job_phases_for_tmpdir(d=tmp, all_jobs=jobs))`). -/
def tmpPhases (jobs : List Job) (tmp : String) : List Phase :=
  (job_phases_for_tmpdir tmp jobs).insertionSort phaseLe

/-- `TmpRow` from monitor.py: as with `JobRow`, every attribute goes through
`converter=str`, so `ready` holds a two-state string and `phases` holds the
formatted phase-list string. -/
structure TmpRow where
  path : String
  ready : String
  phases : String
deriving DecidableEq

/-- `TmpRow.from_tmp`, parametrised by the scheduling-policy collaborator
(`plotman.manager.phases_permit_new_job`) and the formatters. -/
def TmpRow.from_tmp {S : Type}
    (policy : List Phase → String → S → Directories → Bool)
    (F : Formatters) (dir_cfg : Directories) (jobs : List Job)
    (sched_cfg : S) (tmp pfx : String) : TmpRow :=
  let phases := tmpPhases jobs tmp
  let tmp_suffix := F.abbr_path tmp pfx
  let ready := policy phases tmp_suffix sched_cfg dir_cfg
  { path := tmp_suffix
    ready := if ready then "OK" else "--"
    phases := F.phases_str phases 5 }

/-- Code-point lexicographic comparison of character lists, the order Python
uses to compare strings in `sorted(dir_cfg.tmp)`. -/
def charsLe : List Char → List Char → Bool
  | [], _ => true
  | _ :: _, [] => false
  | a :: as, b :: bs => if a < b then true else if b < a then false else charsLe as bs

/-- Python's string `<=`: code-point lexicographic order on the characters. -/
def pathLe (a b : String) : Prop := charsLe a.data b.data = true

instance : DecidableRel pathLe := fun _ _ =>
  inferInstanceAs (Decidable (_ = true))

theorem charsLe_total : ∀ l m : List Char, charsLe l m = true ∨ charsLe m l = true
  | [], _ => Or.inl rfl
  | _ :: _, [] => Or.inr rfl
  | a :: as, b :: bs => by
    rcases lt_trichotomy a b with h | h | h
    · exact Or.inl (by simp [charsLe, h])
    · subst h
      rcases charsLe_total as bs with h' | h'
      · exact Or.inl (by simp [charsLe, lt_irrefl, h'])
      · exact Or.inr (by simp [charsLe, lt_irrefl, h'])
    · exact Or.inr (by simp [charsLe, h])

theorem charsLe_trans : ∀ {l m n : List Char},
    charsLe l m = true → charsLe m n = true → charsLe l n = true
  | [], _, _, _, _ => rfl
  | a :: as, [], _, h, _ => by simp [charsLe] at h
  | _ :: _, _ :: _, [], _, h => by simp [charsLe] at h
  | a :: as, b :: bs, c :: cs, h1, h2 => by
    by_cases hab : a < b
    · by_cases hbc : b < c
      · simp [charsLe, lt_trans hab hbc]
      · have hcb : ¬ c < b := by
          intro hcb
          simp [charsLe, hcb, asymm hcb] at h2
        have hbc' : b = c := le_antisymm (not_lt.mp hcb) (not_lt.mp hbc)
        subst hbc'
        simp [charsLe, hab]
    · have hba : ¬ b < a := by
        intro hba
        simp [charsLe, hba, asymm hba] at h1
      have hab' : a = b := le_antisymm (not_lt.mp hba) (not_lt.mp hab)
      subst hab'
      simp only [charsLe, if_neg (lt_irrefl a)] at h1
      by_cases hac : a < c
      · simp [charsLe, hac]
      · have hca : ¬ c < a := by
          intro hca
          simp [charsLe, hca, asymm hca] at h2
        have hac' : a = c := le_antisymm (not_lt.mp hca) (not_lt.mp hac)
        subst hac'
        simp only [charsLe, if_neg (lt_irrefl a)] at h2 ⊢
        exact charsLe_trans h1 h2

instance : IsTotal String pathLe := ⟨fun a b => charsLe_total a.data b.data⟩

instance : IsTrans String pathLe :=
  ⟨fun _ _ _ h h' => charsLe_trans h h'⟩

/-- `build_tmp_data`: one `TmpRow` per configured tmp directory, iterating
the directories in sorted order (`for tmp in sorted(dir_cfg.tmp)`). -/
def build_tmp_data {S : Type}
    (policy : List Phase → String → S → Directories → Bool)
    (F : Formatters) (jobs : List Job) (dir_cfg : Directories)
    (sched_cfg : S) (pfx : String) : List TmpRow :=
  (dir_cfg.tmp.insertionSort pathLe).map
    (fun tmp => TmpRow.from_tmp policy F dir_cfg jobs sched_cfg tmp pfx)

def TmpRow.astuple (r : TmpRow) : List String := [r.path, r.ready, r.phases]

/-- `build_tmp_table`: one column per `TmpRow` field, one row per data row. -/
def build_tmp_table (tmp_data : List TmpRow) : Table where
  columns := ["tmp", "ready", "phases"]
  rows := tmp_data.map TmpRow.astuple

/-- A key press as the monitor distinguishes them: the character keys and
control-C (`prompt_toolkit.keys.Keys.ControlC`). -/
inductive Key
  | char (c : Char)
  | controlC
deriving DecidableEq

/-- Membership of a key in `quit_keys = {'q', Keys.ControlC}`. -/
def quitKey (k : Key) : Bool :=
  k == Key.char 'q' || k == Key.controlC

/-- One rendered frame of the rich backend: the header layout (tick counter)
plus the two tables pushed before the `live.refresh()` that produced it. -/
structure Frame where
  header : String
  plots : Table
  tmp : Table
deriving DecidableEq

/-- Observable events of one run of the rich (polling) backend. -/
inductive Event
  | acquireRaw
  | releaseRaw
  | sample (tick : Nat)
  | refresh (frame : Frame)
  | readKeys (tick slice : Nat)
  | sleepTenth (tick slice : Nat)
deriving DecidableEq

/-- How a (fuel-bounded) run of the polling loop ends. -/
inductive Outcome (ε : Type)
  | quit
  | error (e : ε)
  | fuelOut
deriving DecidableEq

/-- The frame the rich backend shows for tick `i` when the sampled job list
is `js`: tick counter header, jobs table and tmp table all built from the
one snapshot `js`. -/
def richFrame {S : Type}
    (policy : List Phase → String → S → Directories → Bool)
    (F : Formatters) (cfg : Config S) (dstPfx tmpPfx : String)
    (i : Nat) (js : List Job) : Frame where
  header := toString i
  plots := build_jobs_table (build_jobs_data F js dstPfx tmpPfx)
  tmp := build_tmp_table
    (build_tmp_data policy F js cfg.directories cfg.scheduling tmpPfx)

/-- The quit-polling wait of `with_rich` (`for _ in range(10): keys =
read_keys(); if quit: return; sleep(0.1)`), from slice `s` with `r` slices
remaining: events plus whether a quit key was seen. -/
def richWaitAux (tick : Nat) (keys : Nat → List Key) (s : Nat) :
    Nat → List Event × Bool
  | 0 => ([], false)
  | r + 1 =>
    if (keys s).any quitKey then ([Event.readKeys tick s], true)
    else
      let rest := richWaitAux tick keys (s + 1) r
      (Event.readKeys tick s :: Event.sleepTenth tick s :: rest.1, rest.2)

/-- The full ten-slice wait of one tick. -/
def richWait (tick : Nat) (keys : Nat → List Key) : List Event × Bool :=
  richWaitAux tick keys 0 10

/-- The `for i in itertools.count()` loop of `with_rich`, fuel-bounded:
update header, sample (an error propagates), build and push both tables,
refresh, then poll for quit.  `keys tick slice` is the input read at that
poll. -/
def richLoop {S ε : Type}
    (policy : List Phase → String → S → Directories → Bool)
    (F : Formatters) (sampler : String → List Job → Except ε (List Job))
    (keys : Nat → Nat → List Key) (cfg : Config S) (dstPfx tmpPfx : String) :
    Nat → Nat → List Job → List Event × Outcome ε
  | 0, _, _ => ([], Outcome.fuelOut)
  | fuel + 1, i, jobs =>
    match sampler cfg.directories.log jobs with
    | Except.error e => ([Event.sample i], Outcome.error e)
    | Except.ok jobs' =>
      let frame := richFrame policy F cfg dstPfx tmpPfx i jobs'
      let w := richWait i (keys i)
      let evs := Event.sample i :: Event.refresh frame :: w.1
      if w.2 then (evs, Outcome.quit)
      else
        let rest :=
          richLoop policy F sampler keys cfg dstPfx tmpPfx fuel (i + 1) jobs'
        (evs ++ rest.1, rest.2)

/-- `with_rich`: compute the two common-path prefixes, acquire raw terminal
mode, run the loop starting with an empty job cache, and (the context
managers) release raw mode on any exit from the loop — quit and error
alike.  A `fuelOut` run is still inside the loop, so not yet released. -/
def with_rich {S ε : Type}
    (policy : List Phase → String → S → Directories → Bool)
    (F : Formatters) (sampler : String → List Job → Except ε (List Job))
    (keys : Nat → Nat → List Key) (cfg : Config S) (fuel : Nat) :
    List Event × Outcome ε :=
  let tmpPfx := F.commonpath cfg.directories.tmp
  let dstPfx := F.commonpath cfg.directories.dst
  let r := richLoop policy F sampler keys cfg dstPfx tmpPfx fuel 0 []
  match r.2 with
  | Outcome.fuelOut => (Event.acquireRaw :: r.1, Outcome.fuelOut)
  | o => (Event.acquireRaw :: (r.1 ++ [Event.releaseRaw]), o)

/-- The frame an event pushes, if any. -/
def frameOfEvent : Event → Option Frame
  | Event.refresh f => some f
  | _ => none

/-- The frames pushed to the screen during a rich run, in order. -/
def richFrames (evs : List Event) : List Frame :=
  evs.filterMap frameOfEvent

/-- One invalidated frame of the prompt-toolkit backend: the three text
buffers as they stand when `application.invalidate()` is called. -/
structure PtFrame where
  header : String
  plots : String
  disks : String
deriving DecidableEq

/-- Observable events of the prompt-toolkit render task. -/
inductive PtEvent
  | sample (tick : Nat)
  | invalidate (frame : PtFrame)
  | sleepOne (tick : Nat)
deriving DecidableEq

/-- The frame the prompt-toolkit backend shows for tick `i` and snapshot
`js`: both tables captured to text from the one snapshot. -/
def ptFrame {S : Type}
    (policy : List Phase → String → S → Directories → Bool)
    (F : Formatters) (cfg : Config S) (dstPfx tmpPfx : String)
    (i : Nat) (js : List Job) : PtFrame where
  header := toString i
  plots := F.capture (build_jobs_table (build_jobs_data F js dstPfx tmpPfx))
  disks := F.capture (build_tmp_table
    (build_tmp_data policy F js cfg.directories cfg.scheduling tmpPfx))

/-- The render task of `with_prompt_toolkit`, fuel-bounded.  Cancellation by
the input task is cooperative and observed only at the `await anyio.sleep(1)`
suspension point, so fuel running out models cancellation at a tick
boundary; a sampling error propagates and ends the task group. -/
def ptLoop {S ε : Type}
    (policy : List Phase → String → S → Directories → Bool)
    (F : Formatters) (sampler : String → List Job → Except ε (List Job))
    (cfg : Config S) (dstPfx tmpPfx : String) :
    Nat → Nat → List Job → List PtEvent × Option ε
  | 0, _, _ => ([], none)
  | fuel + 1, i, jobs =>
    match sampler cfg.directories.log jobs with
    | Except.error e => ([PtEvent.sample i], some e)
    | Except.ok jobs' =>
      let frame := ptFrame policy F cfg dstPfx tmpPfx i jobs'
      let rest := ptLoop policy F sampler cfg dstPfx tmpPfx fuel (i + 1) jobs'
      (PtEvent.sample i :: PtEvent.invalidate frame :: PtEvent.sleepOne i ::
        rest.1, rest.2)

/-- `with_prompt_toolkit`: compute the prefixes and run the render task with
an empty job cache. -/
def with_prompt_toolkit {S ε : Type}
    (policy : List Phase → String → S → Directories → Bool)
    (F : Formatters) (sampler : String → List Job → Except ε (List Job))
    (cfg : Config S) (fuel : Nat) : List PtEvent × Option ε :=
  ptLoop policy F sampler cfg (F.commonpath cfg.directories.dst)
    (F.commonpath cfg.directories.tmp) fuel 0 []

/-- The frame a prompt-toolkit event invalidates, if any. -/
def frameOfPtEvent : PtEvent → Option PtFrame
  | PtEvent.invalidate f => some f
  | _ => none

/-- The frames invalidated during a prompt-toolkit run, in order. -/
def ptFrames (evs : List PtEvent) : List PtFrame :=
  evs.filterMap frameOfPtEvent

/-- The wait events of a tick whose first `k` slices see no quit key: a key
read and a 0.1 s sleep per quiet slice. -/
def quietSliceEvents (tick s : Nat) : Nat → List Event
  | 0 => []
  | k + 1 =>
    Event.readKeys tick s :: Event.sleepTenth tick s ::
      quietSliceEvents tick (s + 1) k

/-- Is this event a sampling step? -/
def isSampleEv : Event → Bool
  | Event.sample _ => true
  | _ => false

/-! Concrete instantiations of the collaborator parameters, used to evaluate
the model on explicit inputs. -/

/-- A simple concrete instantiation of the formatting collaborators. -/
def F0 : Formatters where
  abbr_path := fun path _ => path
  time_format := fun n => toString n
  human_format := fun n _ => toString n
  phase_str := fun p => toString p.1 ++ ":" ++ toString p.2
  phases_str := fun ps n =>
    String.intercalate " "
      ((ps.take n).map (fun p => toString p.1 ++ ":" ++ toString p.2))
  commonpath := fun l => l.headD ""
  capture := fun t => String.intercalate "|" (t.columns ++ t.rows.flatten)

/-- A scheduling-policy stub that always permits a new job. -/
def policyT : List Phase → String → Unit → Directories → Bool :=
  fun _ _ _ _ => true

/-- A small concrete configuration. -/
def cfg0 : Config Unit where
  directories := { tmp := ["/b", "/a"], dst := ["/d"], log := "/log" }
  scheduling := ()

/-- A concrete job working in tmp directory `/a`. -/
def mkJob (w : Nat) (p : Phase) : Job where
  plot_id := "0123456789abcdef"
  k := 32
  tmpdir := "/a"
  dstdir := "/d"
  wall := w
  userTime := 1
  sysTime := 2
  ioTime := 3
  phase := p
  tmpUsage := 100
  pid := 42
  runStatus := "RUN"
  mem := 5

/-- Six jobs in the same tmp directory with six distinct phases. -/
def jobs6 : List Job :=
  [mkJob 1 (1, 1), mkJob 2 (1, 2), mkJob 3 (2, 1), mkJob 4 (2, 2),
    mkJob 5 (3, 1), mkJob 6 (3, 2)]

/-- A sampler that always fails. -/
def samplerBad : String → List Job → Except String (List Job) :=
  fun _ _ => Except.error "boom"

/-- A sampler that always returns one running job. -/
def samplerOk : String → List Job → Except String (List Job) :=
  fun _ _ => Except.ok [mkJob 10 (1, 2)]

/-- No key input at all. -/
def keysNone : Nat → Nat → List Key := fun _ _ => []

/-- A `q` key press arriving at tick 0, slice 3. -/
def keysQuitAt3 : Nat → Nat → List Key :=
  fun t s => if t == 0 && s == 3 then [Key.char 'q'] else []

/-! Helper lemmas. -/

/-- A stable sort leaves the subsequence of elements on which the predicate
holds untouched, provided any two such elements are related. -/
theorem insertionSort_filter_eq {α : Type} (r : α → α → Prop) [DecidableRel r]
    (l : List α) (p : α → Bool)
    (hp : ∀ a b, p a = true → p b = true → r a b) :
    (l.insertionSort r).filter p = l.filter p := by
  have hpair : (l.filter p).Pairwise r :=
    List.pairwise_of_forall_mem_list
      (fun a ha b hb => hp a b (List.of_mem_filter ha) (List.of_mem_filter hb))
  have hsub : (l.filter p).Sublist (l.insertionSort r) :=
    List.sublist_insertionSort hpair (List.filter_sublist l)
  have hidem : (l.filter p).filter p = l.filter p := by
    rw [List.filter_filter]
    simp only [Bool.and_self]
  have hsub2 : (l.filter p).Sublist ((l.insertionSort r).filter p) := by
    have h3 := List.Sublist.filter p hsub
    rwa [hidem] at h3
  have hperm : ((l.insertionSort r).filter p).Perm (l.filter p) :=
    (List.perm_insertionSort r l).filter p
  exact (hsub2.eq_of_length hperm.length_eq.symm).symm

/-! Claim theorems. -/

/-- Claim C1: for every list of N running jobs, `build_jobs_data` returns
exactly N `JobRow` rows, sorted in non-decreasing order of the jobs'
wall-clock elapsed time, and any two jobs with equal wall-clock time appear
in the rows in the same relative order as in the input list (stable sort). -/
theorem build_jobs_data_spec (F : Formatters) (jobs : List Job)
    (dstPfx tmpPfx : String) :
    (build_jobs_data F jobs dstPfx tmpPfx).length = jobs.length ∧
    ∃ js : List Job,
      build_jobs_data F jobs dstPfx tmpPfx =
        js.map (fun job => JobRow.from_job F job dstPfx tmpPfx) ∧
      js.Perm jobs ∧
      js.Sorted wallLe ∧
      ∀ w : Nat, js.filter (fun j => j.get_time_wall == w) =
        jobs.filter (fun j => j.get_time_wall == w) := by
  refine ⟨by simp [build_jobs_data, List.length_insertionSort],
    jobs.insertionSort wallLe, rfl, List.perm_insertionSort _ _,
    List.sorted_insertionSort _ _, ?_⟩
  intro w
  apply insertionSort_filter_eq
  intro a b ha hb
  have ha' : a.get_time_wall = w := by simpa using ha
  have hb' : b.get_time_wall = w := by simpa using hb
  unfold wallLe
  omega

/-- Claim C2: for every configured tmp-directory set (and any job list,
scheduling config and prefix), `build_tmp_data` returns exactly one `TmpRow`
per configured tmp directory, iterated in ascending path order. -/
theorem build_tmp_data_spec {S : Type}
    (policy : List Phase → String → S → Directories → Bool)
    (F : Formatters) (jobs : List Job) (dir_cfg : Directories)
    (sched_cfg : S) (pfx : String) :
    (build_tmp_data policy F jobs dir_cfg sched_cfg pfx).length =
      dir_cfg.tmp.length ∧
    ∃ ds : List String,
      ds.Perm dir_cfg.tmp ∧ ds.Sorted pathLe ∧
      build_tmp_data policy F jobs dir_cfg sched_cfg pfx =
        ds.map
          (fun tmp => TmpRow.from_tmp policy F dir_cfg jobs sched_cfg tmp pfx) :=
  ⟨by simp [build_tmp_data, List.length_insertionSort],
    dir_cfg.tmp.insertionSort pathLe, List.perm_insertionSort _ _,
    List.sorted_insertionSort _ _, rfl⟩

/-- Claim C3, counterexample: with six jobs in one tmp directory the phase
list behind the row has six entries — it is not capped at five; only the
formatted string (`phases_str(phases, max_num=5)`) caps what is shown. -/
theorem tmpRow_phases_claim_counterexample :
    (tmpPhases jobs6 "/a").length = 6 ∧
    ¬((tmpPhases jobs6 "/a").length ≤ 5) ∧
    (TmpRow.from_tmp policyT F0 cfg0.directories jobs6 () "/a" "/").phases =
      F0.phases_str (tmpPhases jobs6 "/a") 5 :=
  ⟨by decide, by decide, rfl⟩

/-- Claim C3, amended: the phase list `TmpRow.from_tmp` computes is strictly
ascending but of unbounded length; the `phases` field holds the string the
phase-list formatter produces from it with max count 5. -/
theorem tmpRow_phases_amended {S : Type}
    (policy : List Phase → String → S → Directories → Bool)
    (F : Formatters) (dir_cfg : Directories) (jobs : List Job)
    (sched_cfg : S) (tmp pfx : String) :
    (tmpPhases jobs tmp).Sorted phaseLt ∧
    (TmpRow.from_tmp policy F dir_cfg jobs sched_cfg tmp pfx).phases =
      F.phases_str (tmpPhases jobs tmp) 5 := by
  constructor
  · have hs : (tmpPhases jobs tmp).Pairwise phaseLe :=
      List.sorted_insertionSort _ _
    have hnd : (tmpPhases jobs tmp).Nodup :=
      (List.perm_insertionSort phaseLe _).symm.nodup (List.nodup_dedup _)
    exact (List.Pairwise.and hs hnd).imp
      (fun h => phaseLt_of_phaseLe_of_ne h.1 h.2)
  · rfl

/-- Claim C7, counterexample: the two displayed readiness states are the
strings `OK` and `--`, not `ready` and `not ready`: with an always-true
policy the displayed state is `OK`. -/
theorem ready_label_counterexample :
    (TmpRow.from_tmp policyT F0 cfg0.directories [] () "/a" "/").ready = "OK" ∧
    (TmpRow.from_tmp policyT F0 cfg0.directories [] () "/a" "/").ready ≠
      "ready" :=
  ⟨rfl, by decide⟩

/-- Claim C7, amended: readiness equals the boolean returned by the
scheduling-policy collaborator applied to (phases, abbreviated directory,
sched config, dir config), displayed as a two-state indicator whose states
are `OK` (policy true) and `--` (policy false). -/
theorem ready_indicator_amended {S : Type}
    (policy : List Phase → String → S → Directories → Bool)
    (F : Formatters) (dir_cfg : Directories) (jobs : List Job)
    (sched_cfg : S) (tmp pfx : String) :
    (TmpRow.from_tmp policy F dir_cfg jobs sched_cfg tmp pfx).ready =
      (if policy (tmpPhases jobs tmp) (F.abbr_path tmp pfx) sched_cfg dir_cfg
        then "OK" else "--") ∧
    ((TmpRow.from_tmp policy F dir_cfg jobs sched_cfg tmp pfx).ready = "OK" ∨
      (TmpRow.from_tmp policy F dir_cfg jobs sched_cfg tmp pfx).ready = "--") := by
  refine ⟨rfl, ?_⟩
  by_cases h : policy (tmpPhases jobs tmp) (F.abbr_path tmp pfx) sched_cfg dir_cfg
  · exact Or.inl (by simp [TmpRow.from_tmp, h])
  · exact Or.inr (by simp [TmpRow.from_tmp, h])

/-- Claim C9: the directory argument `TmpRow.from_tmp` passes to the
scheduling-policy collaborator is the abbreviated path
`abbr_path(tmp, prefix)`, and it is the same string stored in the row's
`path` field. -/
theorem policy_receives_abbreviated_path {S : Type}
    (policy : List Phase → String → S → Directories → Bool)
    (F : Formatters) (dir_cfg : Directories) (jobs : List Job)
    (sched_cfg : S) (tmp pfx : String) :
    (TmpRow.from_tmp policy F dir_cfg jobs sched_cfg tmp pfx).path =
      F.abbr_path tmp pfx ∧
    (TmpRow.from_tmp policy F dir_cfg jobs sched_cfg tmp pfx).ready =
      (if policy (tmpPhases jobs tmp)
          ((TmpRow.from_tmp policy F dir_cfg jobs sched_cfg tmp pfx).path)
          sched_cfg dir_cfg
        then "OK" else "--") :=
  ⟨rfl, rfl⟩

/-- Claim C10: every field of every constructed `JobRow` and `TmpRow` is the
`str` coercion of its source value; `TmpRow.phases` holds the formatted
phase-list string and `TmpRow.ready` one of the two strings `OK` / `--`. -/
theorem row_fields_are_strings {S : Type} (F : Formatters) (job : Job)
    (dstPfx tmpPfx : String)
    (policy : List Phase → String → S → Directories → Bool)
    (dir_cfg : Directories) (jobs : List Job) (sched_cfg : S)
    (tmp pfx : String) :
    ((JobRow.from_job F job dstPfx tmpPfx).plot_id =
        toString (job.plot_id.take 8) ∧
      (JobRow.from_job F job dstPfx tmpPfx).k = toString job.k ∧
      (JobRow.from_job F job dstPfx tmpPfx).tmp_path =
        toString (F.abbr_path job.tmpdir tmpPfx) ∧
      (JobRow.from_job F job dstPfx tmpPfx).dst =
        toString (F.abbr_path job.dstdir dstPfx) ∧
      (JobRow.from_job F job dstPfx tmpPfx).wall =
        toString (F.time_format job.get_time_wall) ∧
      (JobRow.from_job F job dstPfx tmpPfx).phase =
        toString (F.phase_str job.progress) ∧
      (JobRow.from_job F job dstPfx tmpPfx).tmp_usage =
        toString (F.human_format job.get_tmp_usage 0) ∧
      (JobRow.from_job F job dstPfx tmpPfx).pid = toString job.pid ∧
      (JobRow.from_job F job dstPfx tmpPfx).stat =
        toString job.get_run_status ∧
      (JobRow.from_job F job dstPfx tmpPfx).mem =
        toString (F.human_format job.get_mem_usage 1) ∧
      (JobRow.from_job F job dstPfx tmpPfx).user =
        toString (F.time_format job.get_time_user) ∧
      (JobRow.from_job F job dstPfx tmpPfx).sys =
        toString (F.time_format job.get_time_sys) ∧
      (JobRow.from_job F job dstPfx tmpPfx).io =
        toString (F.time_format job.get_time_iowait)) ∧
    ((TmpRow.from_tmp policy F dir_cfg jobs sched_cfg tmp pfx).path =
        toString (F.abbr_path tmp pfx) ∧
      (TmpRow.from_tmp policy F dir_cfg jobs sched_cfg tmp pfx).phases =
        toString (F.phases_str (tmpPhases jobs tmp) 5) ∧
      ((TmpRow.from_tmp policy F dir_cfg jobs sched_cfg tmp pfx).ready = "OK" ∨
        (TmpRow.from_tmp policy F dir_cfg jobs sched_cfg tmp pfx).ready =
          "--")) := by
  refine ⟨⟨rfl, rfl, rfl, rfl, rfl, rfl, rfl, rfl, rfl, rfl, rfl, rfl, rfl⟩,
    rfl, rfl, ?_⟩
  by_cases h : policy (tmpPhases jobs tmp) (F.abbr_path tmp pfx) sched_cfg dir_cfg
  · exact Or.inl (by simp [TmpRow.from_tmp, h])
  · exact Or.inr (by simp [TmpRow.from_tmp, h])

/-! Lemmas about the polling wait and the two loops. -/

/-- Every event of the quit-polling wait is a key read or a 0.1 s sleep. -/
theorem richWaitAux_mem (tick : Nat) (keys : Nat → List Key) :
    ∀ (r s : Nat) (e : Event), e ∈ (richWaitAux tick keys s r).1 →
      (∃ j, e = Event.readKeys tick j) ∨ (∃ j, e = Event.sleepTenth tick j)
  | 0, s, e, h => by simp [richWaitAux] at h
  | r + 1, s, e, h => by
    by_cases hq : (keys s).any quitKey
    · simp [richWaitAux, hq] at h
      exact Or.inl ⟨s, h⟩
    · simp [richWaitAux, hq] at h
      rcases h with h | h | h
      · exact Or.inl ⟨s, h⟩
      · exact Or.inr ⟨s, h⟩
      · exact richWaitAux_mem tick keys r (s + 1) e h

/-- The wait phase acquires or releases nothing and pushes no frame. -/
theorem richWait_no_raw_no_frame (tick : Nat) (keys : Nat → List Key) :
    Event.acquireRaw ∉ (richWait tick keys).1 ∧
    Event.releaseRaw ∉ (richWait tick keys).1 ∧
    richFrames (richWait tick keys).1 = [] := by
  refine ⟨?_, ?_, ?_⟩
  · intro h
    rcases richWaitAux_mem tick keys 10 0 _ h with ⟨j, hj⟩ | ⟨j, hj⟩ <;>
      simp at hj
  · intro h
    rcases richWaitAux_mem tick keys 10 0 _ h with ⟨j, hj⟩ | ⟨j, hj⟩ <;>
      simp at hj
  · rw [List.eq_nil_iff_forall_not_mem]
    intro f hf
    rcases List.mem_filterMap.mp hf with ⟨e, he, hfe⟩
    rcases richWaitAux_mem tick keys 10 0 _ he with ⟨j, hj⟩ | ⟨j, hj⟩ <;>
      subst hj <;> simp [frameOfEvent] at hfe

/-- The loop body never acquires or releases raw mode: only the wrapper's
context managers do. -/
theorem richLoop_no_raw {S ε : Type}
    (policy : List Phase → String → S → Directories → Bool)
    (F : Formatters) (sampler : String → List Job → Except ε (List Job))
    (keys : Nat → Nat → List Key) (cfg : Config S) (dstPfx tmpPfx : String) :
    ∀ (fuel i : Nat) (jobs : List Job),
      Event.acquireRaw ∉
        (richLoop policy F sampler keys cfg dstPfx tmpPfx fuel i jobs).1 ∧
      Event.releaseRaw ∉
        (richLoop policy F sampler keys cfg dstPfx tmpPfx fuel i jobs).1
  | 0, i, jobs => by simp [richLoop]
  | fuel + 1, i, jobs => by
    cases hs : sampler cfg.directories.log jobs with
    | error e => simp [richLoop, hs]
    | ok jobs' =>
      have hW := richWait_no_raw_no_frame i (keys i)
      have hIH := richLoop_no_raw policy F sampler keys cfg dstPfx tmpPfx
        fuel (i + 1) jobs'
      by_cases hw : (richWait i (keys i)).2 <;>
        simp [richLoop, hs, hw, hW.1, hW.2.1, hIH.1, hIH.2]

/-- Claim C8: in the polling backend raw terminal input mode is acquired
exactly once at loop entry and released exactly once on every exit path of
the loop — quit and error exits alike (a fuel-out run is still inside the
loop, hence excluded). -/
theorem raw_mode_acquire_release_once {S ε : Type} [DecidableEq ε]
    (policy : List Phase → String → S → Directories → Bool)
    (F : Formatters) (sampler : String → List Job → Except ε (List Job))
    (keys : Nat → Nat → List Key) (cfg : Config S) (fuel : Nat)
    (h : (with_rich policy F sampler keys cfg fuel).2 ≠ Outcome.fuelOut) :
    (with_rich policy F sampler keys cfg fuel).1.head? =
      some Event.acquireRaw ∧
    (with_rich policy F sampler keys cfg fuel).1.getLast? =
      some Event.releaseRaw ∧
    (with_rich policy F sampler keys cfg fuel).1.count Event.acquireRaw = 1 ∧
    (with_rich policy F sampler keys cfg fuel).1.count Event.releaseRaw = 1 := by
  have hraw := richLoop_no_raw policy F sampler keys cfg
    (F.commonpath cfg.directories.dst) (F.commonpath cfg.directories.tmp)
    fuel 0 []
  set r := richLoop policy F sampler keys cfg
    (F.commonpath cfg.directories.dst) (F.commonpath cfg.directories.tmp)
    fuel 0 [] with hr
  cases ho : r.2 with
  | fuelOut =>
    exfalso
    apply h
    simp [with_rich, ← hr, ho]
  | quit =>
    have hform : (with_rich policy F sampler keys cfg fuel).1 =
        Event.acquireRaw :: (r.1 ++ [Event.releaseRaw]) := by
      simp [with_rich, ← hr, ho]
    rw [hform]
    refine ⟨rfl, ?_, ?_, ?_⟩
    · rw [← List.cons_append, List.getLast?_concat]
    · simp [List.count_cons, List.count_append,
        List.count_eq_zero.mpr hraw.1]
    · simp [List.count_cons, List.count_append,
        List.count_eq_zero.mpr hraw.2]
  | error e =>
    have hform : (with_rich policy F sampler keys cfg fuel).1 =
        Event.acquireRaw :: (r.1 ++ [Event.releaseRaw]) := by
      simp [with_rich, ← hr, ho]
    rw [hform]
    refine ⟨rfl, ?_, ?_, ?_⟩
    · rw [← List.cons_append, List.getLast?_concat]
    · simp [List.count_cons, List.count_append,
        List.count_eq_zero.mpr hraw.1]
    · simp [List.count_cons, List.count_append,
        List.count_eq_zero.mpr hraw.2]

/-- If the first quit key of a tick arrives in slice `s + k` (and the `k`
slices from `s` on are quiet), the wait returns quit right at that read:
the quiet slices each read and sleep once, and the quitting slice only
reads. -/
theorem richWaitAux_first_quit (tick : Nat) (keys : Nat → List Key) :
    ∀ (k s r : Nat), k < r →
      (∀ j, j < k → (keys (s + j)).any quitKey = false) →
      (keys (s + k)).any quitKey = true →
      richWaitAux tick keys s r =
        (quietSliceEvents tick s k ++ [Event.readKeys tick (s + k)], true)
  | 0, s, r + 1, _, _, hq => by
    simp only [Nat.add_zero] at hq
    simp [richWaitAux, hq, quietSliceEvents]
  | k + 1, s, r + 1, hk, hfirst, hq => by
    have h0 : (keys s).any quitKey = false := by
      have := hfirst 0 (Nat.succ_pos k)
      simpa using this
    have hrec := richWaitAux_first_quit tick keys k (s + 1) r
      (Nat.lt_of_succ_lt_succ hk)
      (fun j hj => by
        have := hfirst (j + 1) (Nat.succ_lt_succ hj)
        have harith : s + (j + 1) = s + 1 + j := by omega
        rwa [harith] at this)
      (by
        have harith : s + (k + 1) = s + 1 + k := by omega
        rwa [harith] at hq)
    have harith : s + 1 + k = s + (k + 1) := by omega
    simp [richWaitAux, h0, hrec, quietSliceEvents, harith]

/-- Claim C6: in the polling backend's wait phase quit input is polled in 10
slices of ~0.1 s; if the first quit key of the tick arrives in slice `k`,
the tick's wait consists of exactly the `k` quiet read/sleep pairs followed
by that one read — no further slice runs — and the loop returns `quit` with
no further sampling or rendering after that tick's refresh. -/
theorem quit_slice_latency {S ε : Type}
    (policy : List Phase → String → S → Directories → Bool)
    (F : Formatters) (sampler : String → List Job → Except ε (List Job))
    (keys : Nat → Nat → List Key) (cfg : Config S) (dstPfx tmpPfx : String)
    (fuel i k : Nat) (jobs jobs' : List Job)
    (hk : k < 10)
    (hfirst : ∀ j, j < k → (keys i j).any quitKey = false)
    (hq : (keys i k).any quitKey = true)
    (hsample : sampler cfg.directories.log jobs = Except.ok jobs') :
    richWait i (keys i) =
      (quietSliceEvents i 0 k ++ [Event.readKeys i k], true) ∧
    richLoop policy F sampler keys cfg dstPfx tmpPfx (fuel + 1) i jobs =
      (Event.sample i ::
        Event.refresh (richFrame policy F cfg dstPfx tmpPfx i jobs') ::
        (quietSliceEvents i 0 k ++ [Event.readKeys i k]), Outcome.quit) := by
  have hwait : richWait i (keys i) =
      (quietSliceEvents i 0 k ++ [Event.readKeys i k], true) := by
    have := richWaitAux_first_quit i (keys i) k 0 10 hk
      (fun j hj => by simpa using hfirst j hj) (by simpa using hq)
    simpa [richWait] using this
  refine ⟨hwait, ?_⟩
  simp [richLoop, hsample, hwait]

/-- Witness for C6: quit key at tick 0, slice 3 of a concrete run. -/
theorem quit_slice_latency_witness :
    richWait 0 (keysQuitAt3 0) =
      (quietSliceEvents 0 0 3 ++ [Event.readKeys 0 3], true) ∧
    richLoop policyT F0 samplerOk keysQuitAt3 cfg0 "/d" "/b" 3 0 [] =
      (Event.sample 0 ::
        Event.refresh
          (richFrame policyT F0 cfg0 "/d" "/b" 0 [mkJob 10 (1, 2)]) ::
        (quietSliceEvents 0 0 3 ++ [Event.readKeys 0 3]), Outcome.quit) :=
  quit_slice_latency policyT F0 samplerOk keysQuitAt3 cfg0 "/d" "/b" 2 0 3
    [] [mkJob 10 (1, 2)] (by decide) (by decide) (by decide) rfl

/-- Every frame the rich loop pushes is `richFrame` at one tick and one
sampled snapshot. -/
theorem richLoop_frames {S ε : Type}
    (policy : List Phase → String → S → Directories → Bool)
    (F : Formatters) (sampler : String → List Job → Except ε (List Job))
    (keys : Nat → Nat → List Key) (cfg : Config S) (dstPfx tmpPfx : String) :
    ∀ (fuel i : Nat) (jobs : List Job) (f : Frame),
      f ∈ richFrames
        (richLoop policy F sampler keys cfg dstPfx tmpPfx fuel i jobs).1 →
      ∃ (n : Nat) (js : List Job), f = richFrame policy F cfg dstPfx tmpPfx n js
  | 0, i, jobs, f => by simp [richLoop, richFrames]
  | fuel + 1, i, jobs, f => by
    intro hf
    cases hs : sampler cfg.directories.log jobs with
    | error e =>
      have hevs :
          (richLoop policy F sampler keys cfg dstPfx tmpPfx
            (fuel + 1) i jobs).1 = [Event.sample i] := by
        simp [richLoop, hs]
      rw [hevs] at hf
      exact absurd hf (by simp [richFrames, frameOfEvent])
    | ok jobs' =>
      have hW := (richWait_no_raw_no_frame i (keys i)).2.2
      by_cases hw : (richWait i (keys i)).2
      · have hevs :
            (richLoop policy F sampler keys cfg dstPfx tmpPfx
              (fuel + 1) i jobs).1 =
              Event.sample i ::
                Event.refresh (richFrame policy F cfg dstPfx tmpPfx i jobs') ::
                (richWait i (keys i)).1 := by
          simp [richLoop, hs, hw]
        rw [hevs] at hf
        have hred : richFrames
            (Event.sample i ::
              Event.refresh (richFrame policy F cfg dstPfx tmpPfx i jobs') ::
              (richWait i (keys i)).1) =
            richFrame policy F cfg dstPfx tmpPfx i jobs' ::
              richFrames (richWait i (keys i)).1 := rfl
        rw [hred, hW] at hf
        rcases List.mem_singleton.mp hf with hf'
        exact ⟨i, jobs', hf'⟩
      · have hevs :
            (richLoop policy F sampler keys cfg dstPfx tmpPfx
              (fuel + 1) i jobs).1 =
              Event.sample i ::
                Event.refresh (richFrame policy F cfg dstPfx tmpPfx i jobs') ::
                (richWait i (keys i)).1 ++
                (richLoop policy F sampler keys cfg dstPfx tmpPfx
                  fuel (i + 1) jobs').1 := by
          simp [richLoop, hs, hw]
        rw [hevs] at hf
        have hred : richFrames
            (Event.sample i ::
              Event.refresh (richFrame policy F cfg dstPfx tmpPfx i jobs') ::
              (richWait i (keys i)).1 ++
              (richLoop policy F sampler keys cfg dstPfx tmpPfx
                fuel (i + 1) jobs').1) =
            richFrame policy F cfg dstPfx tmpPfx i jobs' ::
              (richFrames (richWait i (keys i)).1 ++
                richFrames (richLoop policy F sampler keys cfg dstPfx tmpPfx
                  fuel (i + 1) jobs').1) := by
          simp [richFrames, List.filterMap_cons, List.filterMap_append,
            frameOfEvent]
        rw [hred, hW] at hf
        simp only [List.nil_append] at hf
        rcases List.mem_cons.mp hf with hf' | hf'
        · exact ⟨i, jobs', hf'⟩
        · exact richLoop_frames policy F sampler keys cfg dstPfx tmpPfx
            fuel (i + 1) jobs' f hf'

/-- Every frame the prompt-toolkit render task invalidates is `ptFrame` at
one tick and one sampled snapshot. -/
theorem ptLoop_frames {S ε : Type}
    (policy : List Phase → String → S → Directories → Bool)
    (F : Formatters) (sampler : String → List Job → Except ε (List Job))
    (cfg : Config S) (dstPfx tmpPfx : String) :
    ∀ (fuel i : Nat) (jobs : List Job) (f : PtFrame),
      f ∈ ptFrames
        (ptLoop policy F sampler cfg dstPfx tmpPfx fuel i jobs).1 →
      ∃ (n : Nat) (js : List Job), f = ptFrame policy F cfg dstPfx tmpPfx n js
  | 0, i, jobs, f => by simp [ptLoop, ptFrames]
  | fuel + 1, i, jobs, f => by
    intro hf
    cases hs : sampler cfg.directories.log jobs with
    | error e =>
      have hevs : (ptLoop policy F sampler cfg dstPfx tmpPfx
          (fuel + 1) i jobs).1 = [PtEvent.sample i] := by
        simp [ptLoop, hs]
      rw [hevs] at hf
      exact absurd hf (by simp [ptFrames, frameOfPtEvent])
    | ok jobs' =>
      have hevs : (ptLoop policy F sampler cfg dstPfx tmpPfx
          (fuel + 1) i jobs).1 =
          PtEvent.sample i ::
            PtEvent.invalidate (ptFrame policy F cfg dstPfx tmpPfx i jobs') ::
            PtEvent.sleepOne i ::
            (ptLoop policy F sampler cfg dstPfx tmpPfx fuel (i + 1) jobs').1 := by
        simp [ptLoop, hs]
      rw [hevs] at hf
      have hred : ptFrames
          (PtEvent.sample i ::
            PtEvent.invalidate (ptFrame policy F cfg dstPfx tmpPfx i jobs') ::
            PtEvent.sleepOne i ::
            (ptLoop policy F sampler cfg dstPfx tmpPfx fuel (i + 1) jobs').1) =
          ptFrame policy F cfg dstPfx tmpPfx i jobs' ::
            ptFrames (ptLoop policy F sampler cfg dstPfx tmpPfx
              fuel (i + 1) jobs').1 := rfl
      rw [hred] at hf
      rcases List.mem_cons.mp hf with hf' | hf'
      · exact ⟨i, jobs', hf'⟩
      · exact ptLoop_frames policy F sampler cfg dstPfx tmpPfx
          fuel (i + 1) jobs' f hf'

/-- Claim C4: in both backends, every rendered frame is determined by a
single tick and the single job snapshot sampled in it — the redraw request
comes only after both row sets of the tick are fully built and written, so
no frame mixes data from two ticks. -/
theorem frames_no_tick_mixing {S ε : Type}
    (policy : List Phase → String → S → Directories → Bool)
    (F : Formatters) (sampler : String → List Job → Except ε (List Job))
    (keys : Nat → Nat → List Key) (cfg : Config S) (fuel fuel' : Nat) :
    (∀ f ∈ richFrames (with_rich policy F sampler keys cfg fuel).1,
      ∃ (n : Nat) (js : List Job),
        f = richFrame policy F cfg (F.commonpath cfg.directories.dst)
          (F.commonpath cfg.directories.tmp) n js) ∧
    (∀ f ∈ ptFrames (with_prompt_toolkit policy F sampler cfg fuel').1,
      ∃ (n : Nat) (js : List Job),
        f = ptFrame policy F cfg (F.commonpath cfg.directories.dst)
          (F.commonpath cfg.directories.tmp) n js) := by
  constructor
  · intro f hf
    have hloop : f ∈ richFrames
        (richLoop policy F sampler keys cfg
          (F.commonpath cfg.directories.dst)
          (F.commonpath cfg.directories.tmp) fuel 0 []).1 := by
      set r := richLoop policy F sampler keys cfg
        (F.commonpath cfg.directories.dst)
        (F.commonpath cfg.directories.tmp) fuel 0 [] with hr
      cases ho : r.2 <;>
        simpa [with_rich, ← hr, ho, richFrames, List.filterMap_cons,
          List.filterMap_append, frameOfEvent] using hf
    exact richLoop_frames policy F sampler keys cfg _ _ fuel 0 [] f hloop
  · intro f hf
    exact ptLoop_frames policy F sampler cfg _ _ fuel' 0 [] f hf

/-- Witness for C4: the first frame of a concrete run of each backend. -/
theorem frames_no_tick_mixing_witness :
    (∃ (n : Nat) (js : List Job),
      richFrame policyT F0 cfg0 "/d" "/b" 0 [mkJob 10 (1, 2)] =
        richFrame policyT F0 cfg0 "/d" "/b" n js) ∧
    (∃ (n : Nat) (js : List Job),
      ptFrame policyT F0 cfg0 "/d" "/b" 0 [mkJob 10 (1, 2)] =
        ptFrame policyT F0 cfg0 "/d" "/b" n js) :=
  ⟨(frames_no_tick_mixing policyT F0 samplerOk keysNone cfg0 1 1).1
      (richFrame policyT F0 cfg0 "/d" "/b" 0 [mkJob 10 (1, 2)]) (by decide),
    (frames_no_tick_mixing policyT F0 samplerOk keysNone cfg0 1 1).2
      (ptFrame policyT F0 cfg0 "/d" "/b" 0 [mkJob 10 (1, 2)]) (by decide)⟩

/-- Claim C5, counterexample: with a sampler that raises, the polling loop
terminates with the error after a single sampling attempt — it does not
continue to the next tick on the prior snapshot. -/
theorem sampler_error_claim_counterexample :
    (with_rich policyT F0 samplerBad keysNone cfg0 5).2 =
      Outcome.error "boom" ∧
    (with_rich policyT F0 samplerBad keysNone cfg0 5).1 =
      [Event.acquireRaw, Event.sample 0, Event.releaseRaw] ∧
    ((with_rich policyT F0 samplerBad keysNone cfg0 5).1.filter
      isSampleEv).length = 1 := by
  refine ⟨by decide, by decide, by decide⟩

/-- Claim C5, amended: if job discovery raises during the sampling step of
any tick — whatever the tick number and whatever job cache the loop has
reached — the error propagates and both backends' loops terminate right
there, after that tick's single sampling attempt and with no further tick;
and whenever the polling backend's run ends in an error, raw mode (acquired
first) is still released on the way out. -/
theorem sampler_error_terminates_loop {S ε : Type}
    (policy : List Phase → String → S → Directories → Bool)
    (F : Formatters) (sampler : String → List Job → Except ε (List Job))
    (keys : Nat → Nat → List Key) (cfg : Config S) (dstPfx tmpPfx : String)
    (fuel i : Nat) (jobs : List Job) (e : ε)
    (h : sampler cfg.directories.log jobs = Except.error e) :
    richLoop policy F sampler keys cfg dstPfx tmpPfx (fuel + 1) i jobs =
      ([Event.sample i], Outcome.error e) ∧
    ptLoop policy F sampler cfg dstPfx tmpPfx (fuel + 1) i jobs =
      ([PtEvent.sample i], some e) ∧
    (∀ (fuel' : Nat) (e' : ε),
      (with_rich policy F sampler keys cfg fuel').2 = Outcome.error e' →
      (with_rich policy F sampler keys cfg fuel').1.head? =
        some Event.acquireRaw ∧
      (with_rich policy F sampler keys cfg fuel').1.getLast? =
        some Event.releaseRaw) := by
  refine ⟨by simp [richLoop, h], by simp [ptLoop, h], ?_⟩
  intro fuel' e' hout
  set r := richLoop policy F sampler keys cfg
    (F.commonpath cfg.directories.dst) (F.commonpath cfg.directories.tmp)
    fuel' 0 [] with hr
  cases ho : r.2 with
  | fuelOut => simp [with_rich, ← hr, ho] at hout
  | quit =>
    have hform : (with_rich policy F sampler keys cfg fuel').1 =
        Event.acquireRaw :: (r.1 ++ [Event.releaseRaw]) := by
      simp [with_rich, ← hr, ho]
    rw [hform]
    exact ⟨rfl, by rw [← List.cons_append, List.getLast?_concat]⟩
  | error e'' =>
    have hform : (with_rich policy F sampler keys cfg fuel').1 =
        Event.acquireRaw :: (r.1 ++ [Event.releaseRaw]) := by
      simp [with_rich, ← hr, ho]
    rw [hform]
    exact ⟨rfl, by rw [← List.cons_append, List.getLast?_concat]⟩

/-- Witness for C5's amended theorem: the sampler fails at tick 2 with a
non-empty job cache, and the concrete erroring polling run still brackets
its trace with acquire/release. -/
theorem sampler_error_terminates_loop_witness :
    richLoop policyT F0 samplerBad keysNone cfg0 "/d" "/b" 3 2
      [mkJob 10 (1, 2)] = ([Event.sample 2], Outcome.error "boom") ∧
    ptLoop policyT F0 samplerBad cfg0 "/d" "/b" 3 2 [mkJob 10 (1, 2)] =
      ([PtEvent.sample 2], some "boom") ∧
    (∀ (fuel' : Nat) (e' : String),
      (with_rich policyT F0 samplerBad keysNone cfg0 fuel').2 =
        Outcome.error e' →
      (with_rich policyT F0 samplerBad keysNone cfg0 fuel').1.head? =
        some Event.acquireRaw ∧
      (with_rich policyT F0 samplerBad keysNone cfg0 fuel').1.getLast? =
        some Event.releaseRaw) :=
  sampler_error_terminates_loop policyT F0 samplerBad keysNone cfg0 "/d" "/b"
    2 2 [mkJob 10 (1, 2)] "boom" rfl

/-- Witness for C8 at a concrete run: one tick, quit key at slice 3. -/
theorem raw_mode_acquire_release_once_witness :
    (with_rich policyT F0 samplerOk keysQuitAt3 cfg0 3).1.head? =
      some Event.acquireRaw ∧
    (with_rich policyT F0 samplerOk keysQuitAt3 cfg0 3).1.getLast? =
      some Event.releaseRaw ∧
    (with_rich policyT F0 samplerOk keysQuitAt3 cfg0 3).1.count
      Event.acquireRaw = 1 ∧
    (with_rich policyT F0 samplerOk keysQuitAt3 cfg0 3).1.count
      Event.releaseRaw = 1 :=
  raw_mode_acquire_release_once policyT F0 samplerOk keysQuitAt3 cfg0 3
    (by decide)

end Plotman
